import Mathlib

/-!
Verification of the aggregation & reporting engine of the personal finance
tracker (src/app.py) against its specification.

Modelling conventions:
* pandas amounts are modelled as rationals (the spec puts floating-point
  precision out of scope).
* Transaction dates are stored as `'YYYY-MM-DD'` strings and parsed by
  `get_dataframe` into timestamps; since all of them are midnights, a date is
  modelled as its day number (days since 1970-01-01) of type `ℤ`.  The clock
  value `datetime.now()` carries a time of day, so `now` is a rational number
  of days.
* A pandas DataFrame of the transaction log is the list of transactions in
  insertion order; a pandas Series produced by `groupby(k)[v].sum()` is the
  list of (key, sum) pairs with the distinct keys in sorted order, as pandas
  sorts group keys.
* A Python dict (the budget registry) is an association list in insertion
  order: assignment to a present key updates the value in place, assignment to
  a fresh key appends.
-/

namespace FinApp

/-- The transaction 'type' field: "Income" or "Expense". -/
inductive Kind where
  | income
  | expense
  deriving DecidableEq, Repr

/-- Position of the kind in the alphabetical order of its string form:
pandas sorts the 'type' strings and "Expense" < "Income". -/
def Kind.idx : Kind → Nat
  | .expense => 0
  | .income => 1

/-- One row of the transaction log, as built by add_transaction. -/
structure Transaction where
  date : ℤ
  category : String
  amount : ℚ
  kind : Kind
  description : String
  tags : List String
  id : Nat
  deriving DecidableEq, Repr

/-- The DataFrame of get_dataframe: the transaction log in insertion order with
dates parsed to a comparable value. -/
abbrev DF := List Transaction

/-- add_transaction: appends a record whose id is the current count. -/
def add_transaction (ledger : DF) (date : ℤ) (category : String) (amount : ℚ)
    (kind : Kind) (description : String) (tags : List String) : DF :=
  ledger ++ [{ date := date, category := category, amount := amount,
               kind := kind, description := description, tags := tags,
               id := ledger.length }]

/-- Proleptic Gregorian civil date (year, month, day) of a day number
(days since 1970-01-01), the inverse of days-from-civil.  This is what
pandas `dt.to_period('M')` reads the month from. -/
def civilFromDays (z0 : ℤ) : ℤ × ℤ × ℤ :=
  let z := z0 + 719468
  let era := z.fdiv 146097
  let doe := z - era * 146097
  let yoe := (doe - doe.fdiv 1460 + doe.fdiv 36524 - doe.fdiv 146096).fdiv 365
  let y := yoe + era * 400
  let doy := doe - (365 * yoe + yoe.fdiv 4 - yoe.fdiv 100)
  let mp := (5 * doy + 2).fdiv 153
  let d := doy - (153 * mp + 2).fdiv 5 + 1
  let m := mp + (if mp < 10 then 3 else -9)
  (if m ≤ 2 then y + 1 else y, m, d)

/-- The 'YYYY-MM' period of a day number, as a (year, month) pair. -/
def monthOfDay (t : ℤ) : ℤ × ℤ :=
  ((civilFromDays t).1, (civilFromDays t).2.1)

/-- pandas groupby sorts string keys alphabetically. -/
def strLe (a b : String) : Bool := decide (a ≤ b)

/-- Sort order of the (date, type) group keys of get_trend_data: date
ascending, then the 'type' strings alphabetically. -/
def dateKindLe (a b : ℤ × Kind) : Bool :=
  decide (a.1 < b.1) || (decide (a.1 = b.1) && decide (a.2.idx ≤ b.2.idx))

/-- `l.groupby(key)[val].sum()`: one (key, sum of the group) pair per distinct
key, keys in sorted order. -/
def groupSum {α κ : Type} [DecidableEq κ] (le : κ → κ → Bool)
    (key : α → κ) (val : α → ℚ) (l : List α) : List (κ × ℚ) :=
  ((l.map key).dedup.mergeSort le).map
    (fun k => (k, ((l.filter (fun a => decide (key a = k))).map val).sum))

/-- `series.get(k, 0)`: the value at key k, defaulting to 0. -/
def seriesGet {κ : Type} [DecidableEq κ] (s : List (κ × ℚ)) (k : κ) : ℚ :=
  match s.find? (fun p => decide (p.1 = k)) with
  | some p => p.2
  | none => 0

/-- calculate_balance (src/app.py lines 72-79). -/
def calculate_balance (df : DF) : ℚ :=
  if df.isEmpty then 0
  else ((df.filter (fun t => decide (t.kind = Kind.income))).map Transaction.amount).sum
       - ((df.filter (fun t => decide (t.kind = Kind.expense))).map Transaction.amount).sum

/-- get_spending_by_category (src/app.py lines 81-87).  The optional month is
a (year, month) pair, the parse of the 'YYYY-MM' token; a falsy month argument
is `none`.  When the expense frame is empty the function returns the empty
Series, which is also what grouping an empty frame yields. -/
def get_spending_by_category (df : DF) (month : Option (ℤ × ℤ)) : List (String × ℚ) :=
  let expense_df := df.filter (fun t => decide (t.kind = Kind.expense))
  let expense_df :=
    match month with
    | some m =>
        if expense_df.isEmpty then expense_df
        else expense_df.filter (fun t => decide (monthOfDay t.date = m))
    | none => expense_df
  groupSum strLe Transaction.category Transaction.amount expense_df

/-- One budget alert record. -/
structure Alert where
  category : String
  budget : ℚ
  spent : ℚ
  over : ℚ
  deriving DecidableEq, Repr

/-- budget_key.split('_')[0]: the prefix of the composite key before its first
underscore. -/
def keyCategory (key : String) : String :=
  String.mk (key.data.takeWhile (fun ch => !decide (ch = '_')))

/-- The composite budget key f"{category}_{month}" of add_budget. -/
def budgetKey (category month : String) : String := category ++ "_" ++ month

/-- check_budget_alerts (src/app.py lines 89-106).  Line 92 computes
current_month from the clock but never reads it, so the clock is not a
parameter here: the spending lookup passes no month filter. -/
def check_budget_alerts (df : DF) (budgets : List (String × ℚ)) : List Alert :=
  budgets.filterMap (fun kv =>
    let category := keyCategory kv.1
    let spending := seriesGet (get_spending_by_category df none) category
    if spending > kv.2 then
      some { category := category, budget := kv.2, spent := spending,
             over := spending - kv.2 }
    else none)

/-- One row of the trend frame after reset_index: (date, 'type', summed
amount). -/
structure TrendRow where
  date : ℤ
  kind : Kind
  amount : ℚ
  deriving DecidableEq, Repr

/-- get_trend_data (src/app.py lines 108-121).  `now` is the clock in days
(with its fractional time of day); the cutoff is now - days and the filter
keeps records with date >= cutoff.  `none` models the `return None` sentinel. -/
def get_trend_data (df : DF) (now : ℚ) (days : ℤ) : Option (List TrendRow) :=
  if df.isEmpty then none
  else if (df.filter (fun t => decide (now - (days : ℚ) ≤ (t.date : ℚ)))).isEmpty then none
  else
    some ((groupSum dateKindLe (fun t => (t.date, t.kind)) Transaction.amount
      (df.filter (fun t => decide (now - (days : ℚ) ≤ (t.date : ℚ))))).map
        (fun p => { date := p.1.1, kind := p.1.2, amount := p.2 }))

/-- max of a nonempty amount column (0 on an empty one, unused there). -/
def colMax : List ℚ → ℚ
  | [] => 0
  | a :: r => r.foldl max a

/-- min of a nonempty amount column (0 on an empty one, unused there). -/
def colMin : List ℚ → ℚ
  | [] => 0
  | a :: r => r.foldl min a

/-- The distinct values of a column in first-occurrence order
(pandas `unique`). -/
def uniqueFirst {κ : Type} [DecidableEq κ] : List κ → List κ
  | [] => []
  | a :: l => a :: (uniqueFirst l).filter (fun x => decide (x ≠ a))

/-- The per-category statistics record of calculate_category_stats. -/
structure CatStats where
  count : Nat
  total : ℚ
  average : ℚ
  max : ℚ
  min : ℚ
  deriving DecidableEq, Repr

/-- calculate_category_stats (src/app.py lines 123-138). -/
def calculate_category_stats (df : DF) : List (String × CatStats) :=
  if df.isEmpty then []
  else
    (uniqueFirst (df.map Transaction.category)).map (fun c =>
      let cat_df := df.filter (fun t => decide (t.category = c))
      (c, { count := cat_df.length,
            total := (cat_df.map Transaction.amount).sum,
            average := (cat_df.map Transaction.amount).sum / (cat_df.length : ℚ),
            max := colMax (cat_df.map Transaction.amount),
            min := colMin (cat_df.map Transaction.amount) }))

/-- The projection ['date', 'category', 'amount', 'type', 'description'] of
get_top_transactions. -/
structure TopRow where
  date : ℤ
  category : String
  amount : ℚ
  kind : Kind
  description : String
  deriving DecidableEq, Repr

/-- The comparison behind `nlargest(n, 'amount')`: amount descending. -/
def amountDesc (a b : Transaction) : Bool := decide (b.amount ≤ a.amount)

/-- The column projection of get_top_transactions. -/
def projTop (t : Transaction) : TopRow :=
  { date := t.date, category := t.category, amount := t.amount,
    kind := t.kind, description := t.description }

/-- get_top_transactions (src/app.py lines 140-144): nlargest is a stable
descending sort by amount (keep='first') truncated to n; on an empty frame the
frame itself (empty) is returned. -/
def get_top_transactions (df : DF) (n : Nat) : List TopRow :=
  if df.isEmpty then []
  else ((df.mergeSort amountDesc).take n).map projTop

/-- add_budget (src/app.py lines 37-40): Python dict assignment, which
updates a present key in place and appends a fresh key. -/
def dictInsert (d : List (String × ℚ)) (k : String) (v : ℚ) : List (String × ℚ) :=
  match d with
  | [] => [(k, v)]
  | p :: rest => if p.1 = k then (k, v) :: rest else p :: dictInsert rest k v

/-- add_budget itself: store the amount under f"{category}_{month}". -/
def add_budget (budgets : List (String × ℚ)) (category : String) (amount : ℚ)
    (month : String) : List (String × ℚ) :=
  dictInsert budgets (budgetKey category month) amount

/-- dict lookup, `d[k]` as an Option. -/
def dictGet? (d : List (String × ℚ)) (k : String) : Option ℚ :=
  (d.find? (fun p => decide (p.1 = k))).map Prod.snd

/-- A whole sequence of add_budget calls (category, amount, month) applied to
the empty registry. -/
def setAll (ops : List (String × ℚ × String)) : List (String × ℚ) :=
  ops.foldl (fun d o => add_budget d o.1 o.2.1 o.2.2) []

/-- Python list.pop(i) at the goal / recurring delete buttons (src/app.py
lines 333-335 and 366-368): removes and returns the element at index i;
an out-of-bounds index raises IndexError before any mutation, modelled as
`none` with the registry unchanged.  The call sites obtain i from
`enumerate`, so indices are naturals. -/
def listPop {α : Type} (l : List α) (i : Nat) : Option (α × List α) :=
  if h : i < l.length then some (l.get ⟨i, h⟩, l.eraseIdx i) else none

/-- Budgets page usage percentage (src/app.py line 283) with its
zero-denominator guard. -/
def budget_usage_pct (spending budget_amount : ℚ) : ℚ :=
  if budget_amount > 0 then spending / budget_amount * 100 else 0

/-- Goals page progress percentage (src/app.py line 323) with its
zero-denominator guard. -/
def goal_progress_pct (spending target : ℚ) : ℚ :=
  if target > 0 then spending / target * 100 else 0

/-- One row of the Budgets page overview table (src/app.py lines 279-291),
amounts kept as numbers rather than dollar strings. -/
structure BudgetRow where
  category : String
  budget : ℚ
  spent : ℚ
  remaining : ℚ
  usagePct : ℚ
  deriving DecidableEq, Repr

/-- The Budgets page overview loop (src/app.py lines 279-291). -/
def budget_overview (df : DF) (budgets : List (String × ℚ)) : List BudgetRow :=
  budgets.map (fun kv =>
    let category := keyCategory kv.1
    let spending := seriesGet (get_spending_by_category df none) category
    { category := category, budget := kv.2, spent := spending,
      remaining := kv.2 - spending,
      usagePct := budget_usage_pct spending kv.2 })

/-- The spec's description of topN: sort by amount descending with ties broken
by original position (a stable descending sort), take n, project the columns.
Stated for comparison with get_top_transactions. -/
def topN_spec (df : DF) (n : Nat) : List TopRow :=
  (((df.enum.mergeSort (List.enumLE amountDesc)).map Prod.snd).take n).map projTop

/-- The claim's version of check_budget_alerts: spent is the CURRENT calendar
month's spending, the month taken from the clock day `now`.  Follows the
claim's words, for comparison with check_budget_alerts. -/
def budgetAlerts_claim (df : DF) (budgets : List (String × ℚ)) (now : ℤ) : List Alert :=
  budgets.filterMap (fun kv =>
    let category := keyCategory kv.1
    let spending := seriesGet (get_spending_by_category df (some (monthOfDay now))) category
    if spending > kv.2 then
      some { category := category, budget := kv.2, spent := spending,
             over := spending - kv.2 }
    else none)

/-- The claim's version of get_trend_data: records restricted to the closed
window [now - days, now], with the upper bound enforced as well.  Follows the
claim's words, for comparison with get_trend_data. -/
def trend_claim (df : DF) (now : ℚ) (days : ℤ) : Option (List TrendRow) :=
  if df.isEmpty then none
  else if (df.filter (fun t =>
      decide (now - (days : ℚ) ≤ (t.date : ℚ)) && decide ((t.date : ℚ) ≤ now))).isEmpty then none
  else
    some ((groupSum dateKindLe (fun t => (t.date, t.kind)) Transaction.amount
      (df.filter (fun t =>
        decide (now - (days : ℚ) ≤ (t.date : ℚ)) && decide ((t.date : ℚ) ≤ now)))).map
          (fun p => { date := p.1.1, kind := p.1.2, amount := p.2 }))

/-- Example row: a Food expense of 80 dated 2025-01-15 (day number 20103). -/
def exFoodJan : Transaction :=
  { date := 20103, category := "Food", amount := 80, kind := Kind.expense,
    description := "groceries", tags := [], id := 0 }

/-- Example row: a Salary income of 1000 dated 2025-01-15. -/
def exSalaryJan : Transaction :=
  { date := 20103, category := "Salary", amount := 1000, kind := Kind.income,
    description := "pay", tags := [], id := 1 }

/-- Example row: a Food expense of 50 dated 2025-04-22 (day number 20200) --
in the future relative to the example clock 20120 (2025-02-01). -/
def exFoodFuture : Transaction :=
  { date := 20200, category := "Food", amount := 50, kind := Kind.expense,
    description := "future", tags := [], id := 0 }

/-- Example category containing an underscore. -/
def exCatU : String := "My_Cat"

/-! Helper lemmas about the grouping combinators. -/

theorem sum_map_filter_split {α : Type} (p : α → Bool) (val : α → ℚ) (l : List α) :
    ((l.filter p).map val).sum + ((l.filter (fun a => !p a)).map val).sum
      = (l.map val).sum := by
  induction l with
  | nil => simp
  | cons a l ih =>
    cases h : p a <;>
      simp only [List.filter_cons, h, Bool.not_true, Bool.not_false, if_pos, if_neg,
        Bool.false_eq_true, not_false_eq_true, List.map_cons, List.sum_cons,
        ite_true, ite_false] <;>
      linarith [ih]

theorem find?_keyed_map {κ : Type} [DecidableEq κ] (f : κ → ℚ) (keys : List κ) (k : κ) :
    (keys.map (fun x => (x, f x))).find? (fun p => decide (p.1 = k))
      = if k ∈ keys then some (k, f k) else none := by
  induction keys with
  | nil => simp
  | cons a keys ih =>
    by_cases h : a = k
    · subst h
      simp
    · rw [List.map_cons, List.find?_cons_of_neg _ (by simpa using h), ih]
      by_cases hm : k ∈ keys
      · rw [if_pos hm, if_pos (List.mem_cons_of_mem a hm)]
      · rw [if_neg hm, if_neg (by simp [Ne.symm h, hm])]

theorem seriesGet_groupSum {α κ : Type} [DecidableEq κ] (le : κ → κ → Bool)
    (key : α → κ) (val : α → ℚ) (l : List α) (k : κ) :
    seriesGet (groupSum le key val l) k
      = ((l.filter (fun a => decide (key a = k))).map val).sum := by
  unfold seriesGet groupSum
  rw [find?_keyed_map]
  by_cases hk : k ∈ (l.map key).dedup.mergeSort le
  · rw [if_pos hk]
  · rw [if_neg hk]
    have hnil : l.filter (fun a => decide (key a = k)) = [] := by
      rw [List.filter_eq_nil_iff]
      intro a ha hp
      exact hk (by
        rw [List.mem_mergeSort, List.mem_dedup]
        exact List.mem_map.mpr ⟨a, ha, of_decide_eq_true hp⟩)
    rw [hnil]
    simp

theorem mem_groupSum {α κ : Type} [DecidableEq κ] (le : κ → κ → Bool)
    (key : α → κ) (val : α → ℚ) (l : List α) (p : κ × ℚ) :
    p ∈ groupSum le key val l
      ↔ ((∃ a ∈ l, key a = p.1)
          ∧ p.2 = ((l.filter (fun a => decide (key a = p.1))).map val).sum) := by
  unfold groupSum
  rw [List.mem_map]
  constructor
  · rintro ⟨k, hk, rfl⟩
    rw [List.mem_mergeSort, List.mem_dedup, List.mem_map] at hk
    obtain ⟨a, ha, rfl⟩ := hk
    exact ⟨⟨a, ha, rfl⟩, rfl⟩
  · rintro ⟨⟨a, ha, hka⟩, hsum⟩
    refine ⟨p.1, ?_, ?_⟩
    · rw [List.mem_mergeSort, List.mem_dedup, List.mem_map]
      exact ⟨a, ha, hka⟩
    · exact Prod.ext rfl hsum.symm

theorem sum_over_keys {α κ : Type} [DecidableEq κ] (key : α → κ) (val : α → ℚ) :
    ∀ (keys : List κ) (l : List α), keys.Nodup → (∀ a ∈ l, key a ∈ keys) →
      (keys.map (fun k => ((l.filter (fun a => decide (key a = k))).map val).sum)).sum
        = (l.map val).sum := by
  intro keys
  induction keys with
  | nil =>
    intro l _ hcov
    cases l with
    | nil => simp
    | cons a l => exact absurd (hcov a (by simp)) (by simp)
  | cons k ks ih =>
    intro l hnd hcov
    rw [List.map_cons, List.sum_cons]
    have hterm : ∀ k' ∈ ks,
        ((l.filter (fun a => decide (key a = k'))).map val).sum
          = (((l.filter (fun a => !decide (key a = k))).filter
              (fun a => decide (key a = k'))).map val).sum := by
      intro k' hk'
      have hkk : k' ≠ k := fun h => (List.nodup_cons.mp hnd).1 (h ▸ hk')
      rw [List.filter_filter]
      refine congrArg List.sum (congrArg (List.map val) (List.filter_congr ?_))
      intro a _
      by_cases h : key a = k'
      · have hne : key a ≠ k := fun hk2 => hkk (h.symm.trans hk2)
        simp [h, hne, hkk]
      · simp [h]
    have hcov2 : ∀ a ∈ l.filter (fun a => !decide (key a = k)), key a ∈ ks := by
      intro a ha
      obtain ⟨hal, hne⟩ := List.mem_filter.mp ha
      have hmem := hcov a hal
      have hne2 : key a ≠ k := by simpa using hne
      rcases List.mem_cons.mp hmem with h | h
      · exact absurd h hne2
      · exact h
    rw [List.map_congr_left hterm, ih _ (List.nodup_cons.mp hnd).2 hcov2,
      sum_map_filter_split (fun a => decide (key a = k)) val l]

theorem sum_groupSum {α κ : Type} [DecidableEq κ] (le : κ → κ → Bool)
    (key : α → κ) (val : α → ℚ) (l : List α) :
    ((groupSum le key val l).map Prod.snd).sum = (l.map val).sum := by
  unfold groupSum
  rw [List.map_map]
  have hperm : List.Perm ((l.map key).dedup.mergeSort le) ((l.map key).dedup) :=
    List.mergeSort_perm _ _
  rw [(hperm.map _).sum_eq]
  exact sum_over_keys key val _ l (List.nodup_dedup _)
    (fun a ha => List.mem_dedup.mpr (List.mem_map_of_mem key ha))

/-! C4: balance. -/

/-- C4: balance equals the sum of Income amounts minus the sum of Expense
amounts, is invariant under permutation of the ledger, and is 0 on the empty
snapshot. -/
theorem balance_correct (df df2 : DF) (hperm : df.Perm df2) :
    calculate_balance df
      = ((df.filter (fun t => decide (t.kind = Kind.income))).map Transaction.amount).sum
        - ((df.filter (fun t => decide (t.kind = Kind.expense))).map Transaction.amount).sum
  ∧ calculate_balance df = calculate_balance df2
  ∧ calculate_balance [] = 0 := by
  have hval : ∀ l : DF, calculate_balance l
      = ((l.filter (fun t => decide (t.kind = Kind.income))).map Transaction.amount).sum
        - ((l.filter (fun t => decide (t.kind = Kind.expense))).map Transaction.amount).sum := by
    intro l
    unfold calculate_balance
    cases l <;> simp
  refine ⟨hval df, ?_, rfl⟩
  rw [hval df, hval df2, ((hperm.filter _).map _).sum_eq, ((hperm.filter _).map _).sum_eq]

/-- Witness for C4 at a concrete two-element ledger and its transposition. -/
theorem balance_correct_witness :
    calculate_balance [exFoodJan, exSalaryJan]
      = (([exFoodJan, exSalaryJan].filter
            (fun t => decide (t.kind = Kind.income))).map Transaction.amount).sum
        - (([exFoodJan, exSalaryJan].filter
            (fun t => decide (t.kind = Kind.expense))).map Transaction.amount).sum
  ∧ calculate_balance [exFoodJan, exSalaryJan] = calculate_balance [exSalaryJan, exFoodJan]
  ∧ calculate_balance [] = 0 :=
  balance_correct [exFoodJan, exSalaryJan] [exSalaryJan, exFoodJan]
    (List.Perm.swap exSalaryJan exFoodJan [])

/-! C8: empty snapshot. -/

/-- C8: on the empty snapshot every aggregation function returns its zero or
empty result rather than an error: balance 0, category stats empty, category
spending empty, trend the no-data sentinel, top-N empty. -/
theorem empty_snapshot_correct (now : ℚ) (days : ℤ) (n : Nat) (month : Option (ℤ × ℤ)) :
    calculate_balance [] = 0
  ∧ calculate_category_stats [] = []
  ∧ get_spending_by_category [] month = []
  ∧ get_trend_data [] now days = none
  ∧ get_top_transactions [] n = [] := by
  refine ⟨rfl, rfl, ?_, rfl, rfl⟩
  cases month <;> simp [get_spending_by_category, groupSum]

/-! C9: percentage guards. -/

/-- C9: both percentage computations return 0 for a non-positive denominator,
and divide only inside the positivity guard. -/
theorem pct_guard (s b : ℚ) :
    (b ≤ 0 → budget_usage_pct s b = 0 ∧ goal_progress_pct s b = 0)
  ∧ (0 < b → budget_usage_pct s b = s / b * 100 ∧ goal_progress_pct s b = s / b * 100) := by
  unfold budget_usage_pct goal_progress_pct
  constructor
  · intro h
    rw [if_neg (not_lt.mpr h)]
    exact ⟨rfl, rfl⟩
  · intro h
    rw [if_pos h]
    exact ⟨rfl, rfl⟩

/-- Witness for C9 at denominators 0 and 2. -/
theorem pct_guard_witness :
    (budget_usage_pct 50 0 = 0 ∧ goal_progress_pct 50 0 = 0)
  ∧ (budget_usage_pct 50 2 = 50 / 2 * 100 ∧ goal_progress_pct 50 2 = 50 / 2 * 100) :=
  ⟨(pct_guard 50 0).1 (by norm_num), (pct_guard 50 2).2 (by norm_num)⟩

/-! C6: remove-at-index. -/

/-- C6: in bounds, pop removes exactly the element at position i, keeping the
other elements in relative order; out of bounds it fails (IndexError) with the
registry untouched. -/
theorem removeAt_correct {α : Type} (l : List α) (i : Nat) :
    (i < l.length →
       ∃ x new, listPop l i = some (x, new)
         ∧ some x = l[i]?
         ∧ new = l.take i ++ l.drop (i + 1)
         ∧ new.length + 1 = l.length
         ∧ (∀ j : Nat, j < i → new[j]? = l[j]?)
         ∧ (∀ j : Nat, i ≤ j → new[j]? = l[j + 1]?))
  ∧ (l.length ≤ i → listPop l i = none) := by
  constructor
  · intro h
    refine ⟨l.get ⟨i, h⟩, l.eraseIdx i, ?_, ?_, ?_, ?_, ?_, ?_⟩
    · unfold listPop
      rw [dif_pos h]
    · rw [List.getElem?_eq_getElem h]
      rfl
    · exact List.eraseIdx_eq_take_drop_succ l i
    · rw [List.length_eraseIdx_of_lt h]
      omega
    · intro j hj
      exact List.getElem?_eraseIdx_of_lt l i j hj
    · intro j hj
      exact List.getElem?_eraseIdx_of_ge l i j hj
  · intro h
    unfold listPop
    rw [dif_neg (by omega)]

/-- Witness for C6: removing index 1 from a 3-element registry, and popping
index 5 from the empty registry. -/
theorem removeAt_correct_witness :
    (∃ x new, listPop [10, 20, 30] 1 = some (x, new)
       ∧ some x = ([10, 20, 30] : List ℕ)[1]?
       ∧ new = [10, 20, 30].take 1 ++ [10, 20, 30].drop (1 + 1)
       ∧ new.length + 1 = ([10, 20, 30] : List ℕ).length
       ∧ (∀ j : Nat, j < 1 → new[j]? = ([10, 20, 30] : List ℕ)[j]?)
       ∧ (∀ j : Nat, 1 ≤ j → new[j]? = ([10, 20, 30] : List ℕ)[j + 1]?))
  ∧ listPop ([] : List ℕ) 5 = none :=
  ⟨(removeAt_correct [10, 20, 30] 1).1 (by decide),
   (removeAt_correct ([] : List ℕ) 5).2 (by decide)⟩

/-! C7: budget overwrite. -/

theorem dictGet?_dictInsert_self (d : List (String × ℚ)) (k : String) (v : ℚ) :
    dictGet? (dictInsert d k v) k = some v := by
  induction d with
  | nil => simp [dictInsert, dictGet?]
  | cons p rest ih =>
    by_cases h : p.1 = k
    · simp [dictInsert, h, dictGet?]
    · rw [dictInsert, if_neg h]
      unfold dictGet?
      rw [List.find?_cons_of_neg _ (by simpa using h)]
      exact ih

theorem mem_keys_dictInsert (d : List (String × ℚ)) (k k' : String) (v : ℚ) :
    k' ∈ (dictInsert d k v).map Prod.fst ↔ k' = k ∨ k' ∈ d.map Prod.fst := by
  induction d with
  | nil => simp [dictInsert]
  | cons p rest ih =>
    by_cases h : p.1 = k
    · rw [dictInsert, if_pos h]
      simp [h]
    · rw [dictInsert, if_neg h]
      simp only [List.map_cons, List.mem_cons, ih]
      tauto

theorem nodup_keys_dictInsert (d : List (String × ℚ)) (k : String) (v : ℚ)
    (hd : (d.map Prod.fst).Nodup) : ((dictInsert d k v).map Prod.fst).Nodup := by
  induction d with
  | nil => simp [dictInsert]
  | cons p rest ih =>
    rw [List.map_cons, List.nodup_cons] at hd
    by_cases h : p.1 = k
    · rw [dictInsert, if_pos h]
      rw [List.map_cons, List.nodup_cons]
      exact ⟨h ▸ hd.1, hd.2⟩
    · rw [dictInsert, if_neg h]
      rw [List.map_cons, List.nodup_cons]
      refine ⟨?_, ih hd.2⟩
      rw [mem_keys_dictInsert]
      rintro (hk | hm)
      · exact h hk
      · exact hd.1 hm

theorem count_le_one_of_nodup_keys (d : List (String × ℚ))
    (hd : (d.map Prod.fst).Nodup) (k : String) :
    (d.filter (fun p => decide (p.1 = k))).length ≤ 1 := by
  induction d with
  | nil => simp
  | cons p rest ih =>
    rw [List.map_cons, List.nodup_cons] at hd
    by_cases h : p.1 = k
    · have hnil : rest.filter (fun p => decide (p.1 = k)) = [] := by
        rw [List.filter_eq_nil_iff]
        intro q hq hqk
        exact hd.1 (h ▸ (of_decide_eq_true hqk) ▸ List.mem_map_of_mem Prod.fst hq)
      rw [List.filter_cons, if_pos (by simpa using h), hnil]
      simp
    · rw [List.filter_cons, if_neg (by simpa using h)]
      exact ih hd.2

theorem nodup_keys_setAll (ops : List (String × ℚ × String)) :
    ((setAll ops).map Prod.fst).Nodup := by
  unfold setAll
  suffices h : ∀ d : List (String × ℚ), (d.map Prod.fst).Nodup →
      ((ops.foldl (fun d o => add_budget d o.1 o.2.1 o.2.2) d).map Prod.fst).Nodup from
    h [] (by simp)
  induction ops with
  | nil => intro d hd; exact hd
  | cons o ops ih =>
    intro d hd
    exact ih _ (nodup_keys_dictInsert _ _ _ hd)

/-- C7: setting a budget twice for the same (category, month) pair leaves the
latest value under that composite key, and any sequence of sets from the empty
registry keeps at most one entry per key. -/
theorem budget_overwrite (d : List (String × ℚ)) (c m : String) (a1 a2 : ℚ)
    (ops : List (String × ℚ × String)) :
    dictGet? (add_budget (add_budget d c a1 m) c a2 m) (budgetKey c m) = some a2
  ∧ ∀ k : String, ((setAll ops).filter (fun p => decide (p.1 = k))).length ≤ 1 :=
  ⟨dictGet?_dictInsert_self _ _ _,
   fun k => count_le_one_of_nodup_keys _ (nodup_keys_setAll ops) k⟩

/-! C3: top-N transactions. -/

/-- C3: top-N has length min n (ledger size), equals the stable descending
sort by amount with ties broken by original position (then projected), and is
weakly descending in amount. -/
theorem topN_correct (df : DF) (n : Nat) :
    (get_top_transactions df n).length = min n df.length
  ∧ get_top_transactions df n = topN_spec df n
  ∧ (get_top_transactions df n).Pairwise (fun a b => b.amount ≤ a.amount) := by
  have hcode : get_top_transactions df n = ((df.mergeSort amountDesc).take n).map projTop := by
    unfold get_top_transactions
    cases df with
    | nil => simp
    | cons a l => rw [if_neg (by simp)]
  have htrans : ∀ a b c : Transaction, amountDesc a b → amountDesc b c → amountDesc a c := by
    intro a b c hab hbc
    unfold amountDesc at hab hbc ⊢
    simp only [decide_eq_true_eq] at hab hbc ⊢
    linarith
  have htotal : ∀ a b : Transaction, amountDesc a b || amountDesc b a := by
    intro a b
    unfold amountDesc
    rcases le_total a.amount b.amount with h | h <;> simp [h]
  refine ⟨?_, ?_, ?_⟩
  · rw [hcode, List.length_map, List.length_take, List.length_mergeSort]
  · rw [hcode]
    unfold topN_spec
    rw [List.mergeSort_enum]
  · rw [hcode]
    have hs : (df.mergeSort amountDesc).Pairwise (fun a b => amountDesc a b) :=
      List.sorted_mergeSort htrans htotal df
    have hs2 := List.Pairwise.sublist (List.take_sublist n _) hs
    exact List.Pairwise.map projTop
      (fun a b hab => by simpa [projTop, amountDesc] using hab) hs2

/-! C5: category spending totals. -/

/-- C5: with no month filter, category spending is the empty mapping when the
ledger has no Expense records, and the sum of its values equals the total
Expense amount of the whole ledger. -/
theorem categorySpending_correct (df : DF) :
    (df.filter (fun t => decide (t.kind = Kind.expense)) = [] →
       get_spending_by_category df none = [])
  ∧ ((get_spending_by_category df none).map Prod.snd).sum
      = ((df.filter (fun t => decide (t.kind = Kind.expense))).map Transaction.amount).sum := by
  have hdef : get_spending_by_category df none
      = groupSum strLe Transaction.category Transaction.amount
          (df.filter (fun t => decide (t.kind = Kind.expense))) := rfl
  constructor
  · intro h
    rw [hdef, h]
    simp [groupSum]
  · rw [hdef]
    exact sum_groupSum _ _ _ _

/-- Witness for C5: an income-only ledger gives the empty mapping; the sum of
values over a mixed ledger equals its total expense amount. -/
theorem categorySpending_correct_witness :
    get_spending_by_category [exSalaryJan] none = []
  ∧ ((get_spending_by_category [exFoodJan, exSalaryJan] none).map Prod.snd).sum
      = (([exFoodJan, exSalaryJan].filter
          (fun t => decide (t.kind = Kind.expense))).map Transaction.amount).sum :=
  ⟨(categorySpending_correct [exSalaryJan]).1 (by decide),
   (categorySpending_correct [exFoodJan, exSalaryJan]).2⟩

/-! C10: category recovery from the composite key. -/

theorem takeWhile_append_stop {p : Char → Bool} (hp : p '_' = false) :
    ∀ (l₁ l₂ : List Char), (l₁ ++ '_' :: l₂).takeWhile p = l₁.takeWhile p := by
  intro l₁ l₂
  induction l₁ with
  | nil =>
    simp only [List.nil_append, List.takeWhile_nil]
    rw [List.takeWhile_cons, hp]
    simp
  | cons a l ih =>
    rw [List.cons_append, List.takeWhile_cons, List.takeWhile_cons]
    cases h : p a
    · simp
    · simp [ih]

theorem all_of_takeWhile_eq_self {α : Type} {p : α → Bool} :
    ∀ {l : List α}, l.takeWhile p = l → ∀ a ∈ l, p a = true := by
  intro l
  induction l with
  | nil =>
    intro _ a ha
    cases ha
  | cons b l ih =>
    intro h a ha
    rw [List.takeWhile_cons] at h
    cases hb : p b
    · rw [hb] at h
      simp at h
    · rw [hb] at h
      simp only [if_pos, List.cons.injEq, true_and] at h
      rcases List.mem_cons.mp ha with rfl | hal
      · exact hb
      · exact ih h a hal

/-- C10: the category used for alert reporting, overview reporting and the
spending lookup is the prefix of the composite budget key before its first
underscore, so a category containing an underscore is truncated everywhere. -/
theorem keyCategory_correct (c m : String) (df : DF) (budgets : List (String × ℚ)) :
    keyCategory (budgetKey c m)
      = String.mk (c.data.takeWhile (fun ch => !decide (ch = '_')))
  ∧ ('_' ∈ c.data → keyCategory (budgetKey c m) ≠ c)
  ∧ (∀ a ∈ check_budget_alerts df budgets, ∃ kv ∈ budgets,
       a.category = keyCategory kv.1
       ∧ a.spent = seriesGet (get_spending_by_category df none) (keyCategory kv.1))
  ∧ (∀ r ∈ budget_overview df budgets, ∃ kv ∈ budgets,
       r.category = keyCategory kv.1
       ∧ r.spent = seriesGet (get_spending_by_category df none) (keyCategory kv.1)) := by
  have hdata : (budgetKey c m).data = c.data ++ '_' :: m.data := by
    unfold budgetKey
    rw [String.data_append, String.data_append]
    have hu : ("_" : String).data = ['_'] := rfl
    rw [hu, List.append_assoc, List.singleton_append]
  have h1 : keyCategory (budgetKey c m)
      = String.mk (c.data.takeWhile (fun ch => !decide (ch = '_'))) := by
    unfold keyCategory
    rw [hdata, takeWhile_append_stop (by simp)]
  refine ⟨h1, ?_, ?_, ?_⟩
  · intro hm heq
    rw [h1] at heq
    have hdat : c.data.takeWhile (fun ch => !decide (ch = '_')) = c.data := by
      have := congrArg String.data heq
      simpa using this
    have := all_of_takeWhile_eq_self hdat '_' hm
    simp at this
  · intro a ha
    unfold check_budget_alerts at ha
    obtain ⟨kv, hkv, hfa⟩ := List.mem_filterMap.mp ha
    dsimp only at hfa
    split at hfa
    · obtain rfl := Option.some.inj hfa
      exact ⟨kv, hkv, rfl, rfl⟩
    · cases hfa
  · intro r hr
    unfold budget_overview at hr
    obtain ⟨kv, hkv, hfr⟩ := List.mem_map.mp hr
    dsimp only at hfr
    obtain rfl := hfr
    exact ⟨kv, hkv, rfl, rfl⟩

/-- Witness for C10 at the underscored category "My_Cat". -/
theorem keyCategory_correct_witness :
    keyCategory (budgetKey exCatU "2025-01")
      = String.mk (exCatU.data.takeWhile (fun ch => !decide (ch = '_')))
  ∧ keyCategory (budgetKey exCatU "2025-01") ≠ exCatU :=
  ⟨(keyCategory_correct exCatU "2025-01" [] []).1,
   (keyCategory_correct exCatU "2025-01" [] []).2.1 (by decide)⟩

/-! C1: budget alerts. -/

theorem groupSum_eval {α κ : Type} [DecidableEq κ] (le : κ → κ → Bool)
    (key : α → κ) (val : α → ℚ) (l : List α) (ks : List κ)
    (h : (l.map key).dedup.mergeSort le = ks) :
    groupSum le key val l
      = ks.map (fun k => (k, ((l.filter (fun a => decide (key a = k))).map val).sum)) := by
  unfold groupSum
  rw [h]

/-- C1 (amended): check_budget_alerts emits, in registry insertion order, one
alert per budget entry whose category's total spending across the WHOLE ledger
exceeds the budget, with spent that all-time spending; neither the budget
key's month nor the current calendar month restricts the spending. -/
theorem budgetAlerts_correct (df : DF) (budgets : List (String × ℚ)) :
    check_budget_alerts df budgets
      = budgets.filterMap (fun kv =>
          let c := keyCategory kv.1
          let s := ((df.filter (fun t =>
              decide (t.category = c) && decide (t.kind = Kind.expense))).map
                Transaction.amount).sum
          if s > kv.2 then
            some { category := c, budget := kv.2, spent := s, over := s - kv.2 }
          else none) := by
  unfold check_budget_alerts
  congr 1
  funext kv
  dsimp only
  have hs : seriesGet (get_spending_by_category df none) (keyCategory kv.1)
      = ((df.filter (fun t =>
          decide (t.category = keyCategory kv.1) && decide (t.kind = Kind.expense))).map
            Transaction.amount).sum := by
    have hdef : get_spending_by_category df none
        = groupSum strLe Transaction.category Transaction.amount
            (df.filter (fun t => decide (t.kind = Kind.expense))) := rfl
    rw [hdef, seriesGet_groupSum, List.filter_filter]
  rw [hs]

/-- C1 counterexample: one January 2025 Food expense of 80 with the clock in
February 2025 and a Food budget of 60 keyed to January.  The code alerts on
the all-time spending 80 > 60; the claim's current-month computation sees no
February spending and emits nothing. -/
theorem budgetAlerts_counterexample :
    check_budget_alerts [exFoodJan] [("Food_2025-01", 60)]
      = [{ category := "Food", budget := 60, spent := 80, over := 20 }]
  ∧ budgetAlerts_claim [exFoodJan] [("Food_2025-01", 60)] 20120 = [] := by
  have hkc : keyCategory "Food_2025-01" = "Food" := by decide
  have hexp : [exFoodJan].filter (fun t => decide (t.kind = Kind.expense)) = [exFoodJan] := by
    rw [List.filter_cons, if_pos (by decide), List.filter_nil]
  have hcat : [exFoodJan].filter (fun a => decide (a.category = "Food")) = [exFoodJan] := by
    rw [List.filter_cons, if_pos (by decide), List.filter_nil]
  have hv : seriesGet (get_spending_by_category [exFoodJan] none) "Food" = 80 := by
    rw [show get_spending_by_category [exFoodJan] none
        = groupSum strLe Transaction.category Transaction.amount
            ([exFoodJan].filter (fun t => decide (t.kind = Kind.expense))) from rfl,
      seriesGet_groupSum, hexp, hcat]
    simp [exFoodJan]
  constructor
  · unfold check_budget_alerts
    simp only [List.filterMap_cons, List.filterMap_nil]
    rw [hkc, hv, if_pos (by norm_num)]
    norm_num [Alert.mk.injEq]
  · unfold budgetAlerts_claim
    simp only [List.filterMap_cons, List.filterMap_nil]
    rw [hkc]
    have hmon : ([exFoodJan].filter (fun t => decide (t.kind = Kind.expense))).filter
        (fun t => decide (monthOfDay t.date = monthOfDay 20120)) = [] := by
      rw [hexp, List.filter_cons, if_neg (by decide), List.filter_nil]
    have hsp2 : get_spending_by_category [exFoodJan] (some (monthOfDay 20120)) = [] := by
      rw [show get_spending_by_category [exFoodJan] (some (monthOfDay 20120))
          = groupSum strLe Transaction.category Transaction.amount
              (([exFoodJan].filter (fun t => decide (t.kind = Kind.expense))).filter
                (fun t => decide (monthOfDay t.date = monthOfDay 20120))) from rfl,
        hmon]
      simp [groupSum]
    rw [hsp2, show seriesGet ([] : List (String × ℚ)) "Food" = 0 from rfl,
      if_neg (by norm_num)]

/-! C2: trend window. -/

theorem dateKindLe_trans (a b c : ℤ × Kind) (hab : dateKindLe a b) (hbc : dateKindLe b c) :
    dateKindLe a c := by
  unfold dateKindLe at hab hbc ⊢
  simp only [Bool.or_eq_true, Bool.and_eq_true, decide_eq_true_eq] at hab hbc ⊢
  rcases hab with h1 | ⟨h1, h2⟩ <;> rcases hbc with h3 | ⟨h3, h4⟩
  · exact Or.inl (h1.trans h3)
  · exact Or.inl (h3 ▸ h1)
  · exact Or.inl (h1 ▸ h3)
  · exact Or.inr ⟨h1.trans h3, h2.trans h4⟩

theorem dateKindLe_total (a b : ℤ × Kind) : dateKindLe a b || dateKindLe b a := by
  unfold dateKindLe
  rcases lt_trichotomy a.1 b.1 with h | h | h
  · simp [h]
  · rcases Nat.le_total a.2.idx b.2.idx with h2 | h2 <;> simp [h, h2]
  · simp [h]

theorem dateKindLe_date_le {a b : ℤ × Kind} (h : dateKindLe a b) : a.1 ≤ b.1 := by
  unfold dateKindLe at h
  simp only [Bool.or_eq_true, Bool.and_eq_true, decide_eq_true_eq] at h
  rcases h with h | ⟨h, _⟩
  · exact le_of_lt h
  · exact le_of_eq h

theorem filter_key_window (df : DF) (w : Transaction → Bool) (d : ℤ) (k : Kind) :
    (df.filter w).filter (fun t => decide ((t.date, t.kind) = (d, k)))
      = df.filter (fun t => decide (t.date = d) && decide (t.kind = k) && w t) := by
  rw [List.filter_filter]
  apply List.filter_congr
  intro t _
  by_cases h1 : t.date = d <;> by_cases h2 : t.kind = k <;>
    simp [h1, h2, Prod.ext_iff, Bool.and_comm]

/-- C2 (amended): get_trend_data returns the no-data sentinel exactly when no
record passes the lower-bound filter date ≥ now − windowDays (there is no
upper bound, so records dated after now are included); otherwise the rows are
the per-(date, kind) amount sums of the records passing that filter, in date
ascending order. -/
theorem trend_correct (df : DF) (now : ℚ) (days : ℤ) :
    (get_trend_data df now days = none
       ↔ df.filter (fun t => decide (now - (days : ℚ) ≤ (t.date : ℚ))) = [])
  ∧ (∀ rows, get_trend_data df now days = some rows →
       rows.Pairwise (fun a b => a.date ≤ b.date)
       ∧ ∀ r : TrendRow, r ∈ rows ↔
           ((∃ t ∈ df, (now - (days : ℚ) ≤ (t.date : ℚ)) ∧ t.date = r.date ∧ t.kind = r.kind)
            ∧ r.amount = ((df.filter (fun t =>
                decide (t.date = r.date) && decide (t.kind = r.kind)
                  && decide (now - (days : ℚ) ≤ (t.date : ℚ)))).map Transaction.amount).sum)) := by
  constructor
  · unfold get_trend_data
    by_cases hdf : df.isEmpty
    · rw [if_pos hdf, List.isEmpty_iff.mp hdf]
      simp
    · rw [if_neg hdf]
      by_cases hrec : (df.filter (fun t => decide (now - (days : ℚ) ≤ (t.date : ℚ)))).isEmpty
      · rw [if_pos hrec]
        exact iff_of_true rfl (List.isEmpty_iff.mp hrec)
      · rw [if_neg hrec]
        have hne : df.filter (fun t => decide (now - (days : ℚ) ≤ (t.date : ℚ))) ≠ [] :=
          fun h => hrec (by rw [h]; rfl)
        exact iff_of_false (by simp) hne
  · intro rows hrows
    unfold get_trend_data at hrows
    by_cases hdf : df.isEmpty
    · rw [if_pos hdf] at hrows
      simp at hrows
    · rw [if_neg hdf] at hrows
      by_cases hrec : (df.filter (fun t => decide (now - (days : ℚ) ≤ (t.date : ℚ)))).isEmpty
      · rw [if_pos hrec] at hrows
        simp at hrows
      · rw [if_neg hrec] at hrows
        have hrows2 : rows = (groupSum dateKindLe (fun t => (t.date, t.kind))
            Transaction.amount
            (df.filter (fun t => decide (now - (days : ℚ) ≤ (t.date : ℚ))))).map
              (fun p => { date := p.1.1, kind := p.1.2, amount := p.2 }) :=
          (Option.some.inj hrows).symm
        subst hrows2
        constructor
        · have hkeys : (((df.filter (fun t => decide (now - (days : ℚ) ≤ (t.date : ℚ)))).map
              (fun t => (t.date, t.kind))).dedup.mergeSort dateKindLe).Pairwise
                (fun a b => dateKindLe a b) :=
            List.sorted_mergeSort dateKindLe_trans dateKindLe_total _
          unfold groupSum
          rw [List.map_map]
          exact List.Pairwise.map _ (fun a b hab => dateKindLe_date_le hab) hkeys
        · intro r
          rw [List.mem_map]
          constructor
          · rintro ⟨⟨⟨d0, k0⟩, s0⟩, hp, rfl⟩
            rw [mem_groupSum] at hp
            obtain ⟨⟨t, ht, hkey⟩, hsum⟩ := hp
            obtain ⟨htl, htw⟩ := List.mem_filter.mp ht
            dsimp only at hkey hsum ⊢
            have hd : t.date = d0 := congrArg Prod.fst hkey
            have hk : t.kind = k0 := congrArg Prod.snd hkey
            refine ⟨⟨t, htl, of_decide_eq_true htw, hd, hk⟩, ?_⟩
            rw [hsum, ← filter_key_window df _ d0 k0]
          · rintro ⟨⟨t, htl, hw2, hdate, hkind⟩, hsum⟩
            refine ⟨((r.date, r.kind), r.amount), ?_, ?_⟩
            · rw [mem_groupSum]
              refine ⟨⟨t, List.mem_filter.mpr ⟨htl, decide_eq_true hw2⟩, ?_⟩, ?_⟩
              · dsimp only
                rw [hdate, hkind]
              · dsimp only
                rw [filter_key_window df _ r.date r.kind]
                exact hsum
            · cases r
              rfl

/-- Concrete evaluation: the future-dated record (2025-04-22) is included by
get_trend_data when the clock is 2025-02-01 and the window is 30 days. -/
theorem trend_eval_future :
    get_trend_data [exFoodFuture] 20120 30
      = some [{ date := 20200, kind := Kind.expense, amount := 50 }] := by
  have hwin : [exFoodFuture].filter
      (fun t => decide ((20120 : ℚ) - ((30 : ℤ) : ℚ) ≤ (t.date : ℚ))) = [exFoodFuture] := by
    rw [List.filter_cons, if_pos ?hc, List.filter_nil]
    case hc =>
      simp only [decide_eq_true_eq]
      norm_num [exFoodFuture]
  have hks : (([exFoodFuture].map (fun t => (t.date, t.kind))).dedup).mergeSort dateKindLe
      = [((20200 : ℤ), Kind.expense)] := by
    rw [show ([exFoodFuture].map (fun t => (t.date, t.kind))).dedup
        = [((20200 : ℤ), Kind.expense)] from by decide]
    exact List.mergeSort_singleton _
  unfold get_trend_data
  rw [if_neg (by decide), hwin, if_neg (by decide), groupSum_eval _ _ _ _ _ hks]
  simp only [List.map_cons, List.map_nil]
  rw [List.filter_cons, if_pos (by decide), List.filter_nil]
  simp [exFoodFuture, TrendRow.mk.injEq]

/-- C2 counterexample: the same future-dated record.  The code includes it
(only the lower bound is checked); the claim's two-sided window [now − 30,
now] contains no record, so the claim predicts the no-data sentinel. -/
theorem trend_counterexample :
    get_trend_data [exFoodFuture] 20120 30
      = some [{ date := 20200, kind := Kind.expense, amount := 50 }]
  ∧ trend_claim [exFoodFuture] 20120 30 = none := by
  refine ⟨trend_eval_future, ?_⟩
  have hflt : [exFoodFuture].filter (fun t =>
      decide ((20120 : ℚ) - ((30 : ℤ) : ℚ) ≤ (t.date : ℚ))
        && decide ((t.date : ℚ) ≤ (20120 : ℚ))) = [] := by
    rw [List.filter_cons, if_neg ?hc, List.filter_nil]
    case hc =>
      simp only [Bool.and_eq_true, decide_eq_true_eq, not_and]
      intro _
      norm_num [exFoodFuture]
  unfold trend_claim
  rw [if_neg (by decide), hflt]
  rfl

/-- Witness for C2: the rows produced on a concrete one-record ledger are
sorted by date. -/
theorem trend_correct_witness :
    List.Pairwise (fun a b : TrendRow => a.date ≤ b.date)
      [{ date := 20200, kind := Kind.expense, amount := 50 }] :=
  ((trend_correct [exFoodFuture] 20120 30).2
    [{ date := 20200, kind := Kind.expense, amount := 50 }] trend_eval_future).1

end FinApp
